import Mathlib

/-!
Verification of `openevolve_eval.py` (cache_ext evaluation harness).

Shallow embedding: JSON values are an inductive type, Python floats are
modelled exactly as rationals (`ℚ`), Python exceptions as an error type
threaded through `Except`, and external effects (filesystem facts,
subprocess results, the clock) as an explicit `World` record of oracles.
Subprocess launches, file copies and directory creation are recorded in an
explicit effect trace.
-/

/-- Python exceptions relevant to the evaluator's control flow. -/
inductive PyExn
  | attributeError
  | typeError
  | valueError
deriving DecidableEq, Repr

/-- JSON values as produced by `json.load`. Numbers are modelled exactly
as rationals. -/
inductive JVal
  | jnull
  | jbool (b : Bool)
  | jnum (q : ℚ)
  | jstr (s : String)
  | jarr (xs : List JVal)
  | jobj (fields : List (String × JVal))

/-- Lookup of a key in a JSON object's field list; on duplicate keys the
last binding wins, matching `json.load` / Python `dict` semantics. -/
def objGet (fields : List (String × JVal)) (k : String) : Option JVal :=
  fields.foldl (fun acc kv => if kv.1 = k then some kv.2 else acc) none

/-- Python `value.get(key, default)`: succeeds only on a `dict`; any other
receiver raises `AttributeError` (no `.get` attribute). -/
def pyGet (v : JVal) (key : String) (default : JVal) : Except PyExn JVal :=
  match v with
  | .jobj fields => .ok ((objGet fields key).getD default)
  | _ => .error .attributeError

/-- Python `==` between a loaded JSON value and a string literal: true only
when the value is that string. -/
def pyEqStr : JVal → String → Bool
  | .jstr s, t => s == t
  | _, _ => false

/-- Numeric value of a list of decimal digit characters. -/
def digitsVal (cs : List Char) : ℕ :=
  cs.foldl (fun a c => 10 * a + (c.toNat - 48)) 0

/-- Split an optional leading sign: returns (isNegative, rest). -/
def splitSign : List Char → Bool × List Char
  | '-' :: rest => (true, rest)
  | '+' :: rest => (false, rest)
  | cs => (false, cs)

/-- Take the longest prefix of decimal digits. -/
def takeDigits : List Char → List Char × List Char
  | [] => ([], [])
  | c :: rest =>
    if c.isDigit then
      let (d, r) := takeDigits rest
      (c :: d, r)
    else ([], c :: rest)

/-- Parse an optional exponent part (`e`/`E`, sign, digits) applied to a
mantissa; empty input returns the mantissa itself. -/
def parseExp (mant : ℚ) : List Char → Option ℚ
  | [] => some mant
  | c :: rest =>
    if c = 'e' ∨ c = 'E' then
      let (neg, rest1) := splitSign rest
      let (ds, rest2) := takeDigits rest1
      if ds = [] ∨ rest2 ≠ [] then none
      else some (if neg then mant / 10 ^ digitsVal ds else mant * 10 ^ digitsVal ds)
    else none

/-- Parse an unsigned decimal literal: digits, optional `.digits`, optional
exponent; at least one digit must appear before the exponent. -/
def parseUnsigned (cs : List Char) : Option ℚ :=
  let (ip, rest1) := takeDigits cs
  match rest1 with
  | '.' :: rest2 =>
    let (fp, rest3) := takeDigits rest2
    if ip = [] ∧ fp = [] then none
    else parseExp ((digitsVal ip : ℚ) + (digitsVal fp : ℚ) / 10 ^ fp.length) rest3
  | rest =>
    if ip = [] then none else parseExp (digitsVal ip : ℚ) rest

/-- Python `str.strip()`: drop leading and trailing whitespace. -/
def stripChars (cs : List Char) : List Char :=
  ((cs.dropWhile Char.isWhitespace).reverse.dropWhile Char.isWhitespace).reverse

/-- Python `str.strip()` on a `String`. -/
def pyStrip (s : String) : String := ⟨stripChars s.data⟩

/-- Model of CPython `float(s)` on a string: surrounding whitespace is
stripped, then an optionally signed decimal literal is parsed exactly
(`none` models `ValueError`). -/
def pyFloatOfString (s : String) : Option ℚ :=
  let (neg, cs) := splitSign (stripChars s.data)
  (parseUnsigned cs).map (fun q => if neg then -q else q)

/-- Model of Python `float(x)` on a loaded JSON value: numbers pass
through, booleans coerce to 0/1, strings are parsed (`ValueError` on
failure), and `None`/lists/dicts raise `TypeError`. -/
def pyFloat : JVal → Except PyExn ℚ
  | .jnum q => .ok q
  | .jbool b => .ok (if b then 1 else 0)
  | .jstr s =>
    match pyFloatOfString s with
    | some q => .ok q
    | none => .error .valueError
  | .jnull => .error .typeError
  | .jarr _ => .error .typeError
  | .jobj _ => .error .typeError

/-- The record-filtering loop of `_load_cache_ext_runtimes` (lines 97-106):
for each entry, `entry.get("config", {})` and `config.get("cgroup_name")`
run unprotected (an `AttributeError` propagates), mismatching records are
skipped, and around the runtime extraction only `TypeError` and
`ValueError` are caught (the record is then dropped); note that
`entry.get("results", {}).get("runtime_sec")` sits inside that `try` but
its `AttributeError` is not in the `except` tuple, so it propagates. -/
def processEntries : List JVal → Except PyExn (List ℚ)
  | [] => .ok []
  | entry :: rest => do
    let config ← pyGet entry "config" (.jobj [])
    let cg ← pyGet config "cgroup_name" .jnull
    if ¬ pyEqStr cg "cache_ext_test" then
      processEntries rest
    else do
      let results ← pyGet entry "results" (.jobj [])
      let rt ← pyGet results "runtime_sec" .jnull
      match pyFloat rt with
      | .ok q => do
        let rs ← processEntries rest
        .ok (q :: rs)
      | .error .typeError => processEntries rest
      | .error .valueError => processEntries rest
      | .error e => .error e

/-- The observable state of the results file when it is read. -/
inductive FileContent
  | missing
  | invalid
  | parsed (data : JVal)

/-- `_load_cache_ext_runtimes`: a missing file, an `OSError`, or a
`JSONDecodeError` yield `[]`; otherwise the loaded data is iterated as a
list when it is one (and as `[]` when not) through `processEntries`. -/
def load_cache_ext_runtimes : FileContent → Except PyExn (List ℚ)
  | .missing => .ok []
  | .invalid => .ok []
  | .parsed data =>
    processEntries (match data with | .jarr xs => xs | _ => [])

/-- Captured output of a completed subprocess. -/
structure ProcResult where
  stdout : String
  stderr : String
  returncode : Int
deriving DecidableEq, Repr

/-- External effects the evaluator performs, in order. -/
inductive Effect
  | copyFile (src dest : String)
  | runBuild
  | mkdirResults
  | spawnBenchmark (filename : String)
deriving DecidableEq, Repr

/-- The environment one `evaluate` call observes: filesystem facts, path
resolution, subprocess outcomes, the timestamp, and the content the
results file has when it is parsed. -/
structure World where
  home : String
  pathExists : String → Bool
  isFile : String → Bool
  expanduser : String → String
  resolvePath : String → String
  policyDestReal : String
  copyOk : Bool
  copyErrMsg : String
  buildScriptExists : Bool
  buildResult : ProcResult
  runScriptExists : Bool
  spawnOk : Bool
  spawnErrMsg : String
  runResult : ProcResult
  timestamp : String
  resultsFile : FileContent

def REPO_ROOT (w : World) : String := w.home ++ "/cache_ext"

def FILESEARCH_DIR (w : World) : String := REPO_ROOT w ++ "/eval/filesearch"

def POLICY_DEST (w : World) : String :=
  REPO_ROOT w ++ "/policies/cache_ext_agent.bpf.c"

def BUILD_SCRIPT (w : World) : String := REPO_ROOT w ++ "/build_policies.sh"

/-- The last index at which `c` occurs in `cs`, if any. -/
def lastIndexOf (c : Char) (cs : List Char) : Option ℕ :=
  (cs.enum.filter (fun p => p.2 = c)).getLast?.map Prod.fst

/-- `pathlib.PurePath.name`: the final path component (trailing slashes
stripped). -/
def pathName (cs : List Char) : List Char :=
  ((cs.reverse.dropWhile (· = '/')).takeWhile (· ≠ '/')).reverse

/-- `pathlib.PurePath.suffix`: the part of the final path component from
its last dot on, empty when the last dot is absent, leading, or trailing. -/
def pathSuffix (s : String) : String :=
  let name := pathName s.data
  match lastIndexOf '.' name with
  | none => ""
  | some i => if 0 < i ∧ i < name.length - 1 then ⟨name.drop i⟩ else ""

/-- Diagnostic maps: association lists in insertion order (each stage of
the Python code only ever adds fresh keys to its `artifacts` dict). -/
def hasKey (arts : List (String × String)) (k : String) : Bool :=
  arts.any (fun kv => kv.1 == k)

def getVal (arts : List (String × String)) (k : String) : Option String :=
  arts.foldl (fun acc kv => if kv.1 = k then some kv.2 else acc) none

/-- Lines 145-168 of `_prepare_policy`: the build stage that straight-line
code falls through to after the copy decision, with the artifacts and
effects accumulated so far. Emits `build_error` when the build script is
missing or exits non-zero; captures stdout/stderr/exit code verbatim. -/
def buildStage (w : World) (arts : List (String × String)) (effs : List Effect) :
    Bool × List (String × String) × List Effect :=
  if ¬ w.buildScriptExists then
    (false, arts ++ [("build_error", "build_policies.sh not found at " ++ BUILD_SCRIPT w)], effs)
  else
    let bp := w.buildResult
    let arts := arts ++
      [("build_stdout", bp.stdout), ("build_stderr", bp.stderr),
       ("build_exit_code", toString bp.returncode)]
    if bp.returncode ≠ 0 then
      (false,
       arts ++ [("build_error", "build_policies.sh failed with exit code " ++ toString bp.returncode)],
       effs ++ [.runBuild])
    else
      (true, arts, effs ++ [.runBuild])

/-- `_prepare_policy` (lines 109-168), with an added effect trace:
absent or blank paths succeed with no side effect; a nonexistent or
non-regular or non-`.c` path fails with `program_error`; a differing
resolved path is copied (failure: `program_error`); then the build stage
runs. -/
def prepare_policy (w : World) (program_path : Option String) :
    Bool × List (String × String) × List Effect :=
  match program_path with
  | none => (true, [], [])
  | some p =>
    let candidate := pyStrip p
    if candidate = "" then (true, [], [])
    else
      let source_path := w.expanduser candidate
      if ¬ (w.pathExists source_path ∧ w.isFile source_path) then
        (false,
         [("program_error",
           "Provided program_path does not exist or is not a file: " ++ source_path)],
         [])
      else if pathSuffix source_path ≠ ".c" then
        (false,
         [("program_error", "Expected a BPF C source (.c), got: " ++ source_path)],
         [])
      else
        let source_real := w.resolvePath source_path
        let dest_real := w.policyDestReal
        if source_real ≠ dest_real then
          if ¬ w.copyOk then
            (false,
             [("program_error",
               "Failed to copy BPF program to " ++ POLICY_DEST w ++ ": " ++ w.copyErrMsg)],
             [.copyFile source_real dest_real])
          else
            buildStage w [("copied_policy_from", source_real)]
              [.copyFile source_real dest_real]
        else
          buildStage w [] []

/-- `_run_filesearch_script` (lines 33-85): a missing `run.sh` or a failed
spawn records only `run_error` and starts no subprocess; otherwise the
accumulated stdout/stderr, the exit code and the results filename are
recorded regardless of the exit code. -/
def run_filesearch_script (w : World) (results_filename : String) :
    List (String × String) × List Effect :=
  if ¬ w.runScriptExists then
    ([("run_error", "run.sh not found at " ++ FILESEARCH_DIR w ++ "/run.sh")], [])
  else if ¬ w.spawnOk then
    ([("run_error", "Failed to execute run.sh: " ++ w.spawnErrMsg)], [])
  else
    ([("run_stdout", w.runResult.stdout),
      ("run_stderr", w.runResult.stderr),
      ("run_exit_code", toString w.runResult.returncode),
      ("results_filename", results_filename)],
     [.spawnBenchmark results_filename])

/-- The score component of the metrics: a Python float that is either the
negative-infinity sentinel or a finite value. -/
inductive Score
  | neginf
  | val (q : ℚ)
deriving DecidableEq, Repr

/-- The three metrics `evaluate` returns. -/
structure Metrics where
  cache_ext_avg_runtime_sec : ℚ
  cache_ext_run_count : ℚ
  combined_score : Score
deriving DecidableEq, Repr

structure EvaluationResult where
  metrics : Metrics
  artifacts : List (String × String)
deriving DecidableEq, Repr

/-- `statistics.mean` on a nonempty list of floats (exact). -/
def pymean (xs : List ℚ) : ℚ := xs.sum / xs.length

/-- `evaluate` (lines 171-210), with an added effect trace: stage the
candidate (failure short-circuits to the `-inf` sentinel), create the
results directory, generate the timestamped filename, run the benchmark,
parse the runtimes (an uncaught exception propagates), and aggregate. -/
def evaluate (w : World) (program_path : Option String) :
    Except PyExn (EvaluationResult × List Effect) :=
  let (success, prep_artifacts, prep_effects) := prepare_policy w program_path
  if ¬ success then
    .ok (⟨⟨0, 0, .neginf⟩, prep_artifacts⟩, prep_effects)
  else
    let results_filename := "filesearch_results_" ++ w.timestamp ++ ".json"
    let (run_artifacts, run_effects) := run_filesearch_script w results_filename
    let artifacts := prep_artifacts ++ run_artifacts
    let effects := prep_effects ++ [.mkdirResults] ++ run_effects
    match load_cache_ext_runtimes w.resultsFile with
    | .error e => .error e
    | .ok runtimes =>
      if runtimes ≠ [] then
        let avg := pymean runtimes
        .ok (⟨⟨avg, (runtimes.length : ℚ), .val (-avg)⟩, artifacts⟩, effects)
      else
        .ok (⟨⟨0, 0, .neginf⟩, artifacts⟩, effects)

/-- A results record with the qualifying cgroup name and the given
runtime value. -/
def cacheRec (v : JVal) : JVal :=
  .jobj [("config", .jobj [("cgroup_name", .jstr "cache_ext_test")]),
         ("results", .jobj [("runtime_sec", v)])]

/-- The record from the spec whose cgroup name is "other". -/
def otherRec : JVal :=
  .jobj [("config", .jobj [("cgroup_name", .jstr "other")]),
         ("results", .jobj [("runtime_sec", .jnum 99)])]

/-- The three-record results content from the spec's aggregation example. -/
def specData : JVal := .jarr [cacheRec (.jnum 2), otherRec, cacheRec (.jnum 4)]

/-- Keys the staging stage (`_prepare_policy`) can emit. -/
def stagingKeys : List String :=
  ["program_error", "copied_policy_from", "build_stdout", "build_stderr",
   "build_exit_code", "build_error"]

/-- Keys the run stage (`_run_filesearch_script`) can emit. -/
def runKeys : List String :=
  ["run_error", "run_stdout", "run_stderr", "run_exit_code", "results_filename"]

/-- A fully healthy environment; witness worlds are variations of it. -/
def baseWorld : World :=
  { home := "/root"
    pathExists := fun _ => true
    isFile := fun _ => true
    expanduser := id
    resolvePath := id
    policyDestReal := "/root/cache_ext/policies/cache_ext_agent.bpf.c"
    copyOk := true
    copyErrMsg := ""
    buildScriptExists := true
    buildResult := ⟨"", "", 0⟩
    runScriptExists := true
    spawnOk := true
    spawnErrMsg := ""
    runResult := ⟨"", "", 0⟩
    timestamp := "20250101_000000"
    resultsFile := .missing }

/-- The key list of a diagnostics map. -/
def keysOf (arts : List (String × String)) : List String := arts.map Prod.fst

/-- A record the filtering loop skips without touching its results block:
an object whose `config` entry (or its `{}` default) is an object whose
`cgroup_name` differs from `"cache_ext_test"`. -/
def entrySkips : JVal → Bool
  | .jobj fs =>
    match (objGet fs "config").getD (.jobj []) with
    | .jobj cfs => ! pyEqStr ((objGet cfs "cgroup_name").getD .jnull) "cache_ext_test"
    | _ => false
  | _ => false

/-- A record the filtering loop can process without raising: an object
whose `config` and `results` entries, when present, are objects (their
`{}` defaults otherwise). -/
def entrySafe : JVal → Bool
  | .jobj fs =>
    (match (objGet fs "config").getD (.jobj []) with
     | .jobj _ => true
     | _ => false) &&
    (match (objGet fs "results").getD (.jobj []) with
     | .jobj _ => true
     | _ => false)
  | _ => false

lemma hasKey_iff (arts : List (String × String)) (k : String) :
    hasKey arts k = true ↔ k ∈ keysOf arts := by
  simp [hasKey, keysOf, List.any_eq_true]

lemma buildStage_keys (w : World) (arts : List (String × String))
    (effs : List Effect) (k : String)
    (h : k ∈ keysOf (buildStage w arts effs).2.1) :
    k ∈ keysOf arts ∨
      k ∈ ["build_stdout", "build_stderr", "build_exit_code", "build_error"] := by
  unfold buildStage at h
  dsimp only at h
  split_ifs at h <;> simp_all [keysOf] <;> tauto

lemma buildStage_effects (w : World) (arts : List (String × String))
    (effs : List Effect) (e : Effect)
    (h : e ∈ (buildStage w arts effs).2.2) :
    e ∈ effs ∨ e = .runBuild := by
  unfold buildStage at h
  dsimp only at h
  split_ifs at h <;> simp_all

lemma buildStage_runBuild_mem (w : World) (arts : List (String × String))
    (effs : List Effect) :
    Effect.runBuild ∈ (buildStage w arts effs).2.2 ↔
      Effect.runBuild ∈ effs ∨ w.buildScriptExists = true := by
  unfold buildStage
  dsimp only
  split_ifs with h1 h2 <;> simp_all

lemma prepare_policy_keys (w : World) (p : Option String) (k : String)
    (h : k ∈ keysOf (prepare_policy w p).2.1) :
    k ∈ stagingKeys := by
  match p with
  | none => simp [prepare_policy, keysOf] at h
  | some s =>
    unfold prepare_policy at h
    dsimp only at h
    split_ifs at h
    all_goals
      first
      | (simp_all [stagingKeys, keysOf]; done)
      | (rcases buildStage_keys _ _ _ _ h with h' | h' <;>
          simp_all [stagingKeys, keysOf])

lemma prepare_policy_effects (w : World) (p : Option String) (e : Effect)
    (h : e ∈ (prepare_policy w p).2.2) :
    (∃ s d, e = .copyFile s d) ∨ e = .runBuild := by
  match p with
  | none => simp [prepare_policy] at h
  | some s =>
    unfold prepare_policy at h
    dsimp only at h
    split_ifs at h
    all_goals
      first
      | (simp_all; done)
      | (rcases buildStage_effects _ _ _ _ h with h' | h' <;> simp_all)

lemma run_filesearch_keys (w : World) (f : String) (k : String)
    (h : k ∈ keysOf (run_filesearch_script w f).1) :
    k ∈ runKeys := by
  unfold run_filesearch_script at h
  split_ifs at h <;> simp_all [runKeys, keysOf]

lemma hasKey_false_of_not_mem (arts : List (String × String)) (k : String)
    (h : k ∉ keysOf arts) : hasKey arts k = false := by
  cases hk : hasKey arts k
  · rfl
  · exact absurd ((hasKey_iff arts k).mp hk) h

lemma prepare_policy_hasKey_false (w : World) (p : Option String) (k : String)
    (hk : k ∉ stagingKeys) : hasKey (prepare_policy w p).2.1 k = false :=
  hasKey_false_of_not_mem _ _ (fun hm => hk (prepare_policy_keys w p k hm))

/-- C9: an absent candidate path, and any candidate that is blank after
stripping whitespace, make staging succeed with an empty diagnostic map
and an empty effect trace (no copy, no build invocation). -/
theorem C9_blank_path_noop (w : World) :
    prepare_policy w none = (true, [], []) ∧
    ∀ p, pyStrip p = "" → prepare_policy w (some p) = (true, [], []) := by
  refine ⟨rfl, fun p hp => ?_⟩
  unfold prepare_policy
  simp [hp]

theorem C9_blank_path_noop_witness :
    prepare_policy baseWorld none = (true, [], []) ∧
    prepare_policy baseWorld (some "  ") = (true, [], []) :=
  ⟨(C9_blank_path_noop baseWorld).1,
   (C9_blank_path_noop baseWorld).2 "  " (by decide)⟩

/-- C6: an existing regular file whose path suffix is not ".c" makes
staging fail with a `program_error` diagnostic, and the build step is
never attempted: no `build_stdout`, `build_stderr` or `build_exit_code`
diagnostics and no build effect. -/
theorem C6_wrong_extension (w : World) (c : String)
    (hne : pyStrip c ≠ "")
    (hex : w.pathExists (w.expanduser (pyStrip c)) = true)
    (hf : w.isFile (w.expanduser (pyStrip c)) = true)
    (hsuf : pathSuffix (w.expanduser (pyStrip c)) ≠ ".c") :
    prepare_policy w (some c) =
      (false,
       [("program_error",
         "Expected a BPF C source (.c), got: " ++ w.expanduser (pyStrip c))],
       []) ∧
    hasKey (prepare_policy w (some c)).2.1 "program_error" = true ∧
    hasKey (prepare_policy w (some c)).2.1 "build_stdout" = false ∧
    hasKey (prepare_policy w (some c)).2.1 "build_stderr" = false ∧
    hasKey (prepare_policy w (some c)).2.1 "build_exit_code" = false ∧
    Effect.runBuild ∉ (prepare_policy w (some c)).2.2 := by
  have he : prepare_policy w (some c) =
      (false,
       [("program_error",
         "Expected a BPF C source (.c), got: " ++ w.expanduser (pyStrip c))],
       []) := by
    unfold prepare_policy
    simp [hne, hex, hf, hsuf]
  refine ⟨he, ?_, ?_, ?_, ?_, ?_⟩ <;> rw [he] <;> simp [hasKey]

theorem C6_wrong_extension_witness :
    prepare_policy baseWorld (some "/tmp/x.py") =
      (false,
       [("program_error",
         "Expected a BPF C source (.c), got: " ++
           baseWorld.expanduser (pyStrip "/tmp/x.py"))],
       []) ∧
    hasKey (prepare_policy baseWorld (some "/tmp/x.py")).2.1 "build_stdout" = false :=
  ⟨(C6_wrong_extension baseWorld "/tmp/x.py" (by decide) rfl rfl (by decide)).1,
   (C6_wrong_extension baseWorld "/tmp/x.py" (by decide) rfl rfl (by decide)).2.2.1⟩

/-- C3: whenever staging fails, `evaluate` returns the `-inf` sentinel
with exactly the staging diagnostics, and the benchmark step is never
invoked: no `run_stdout` or `run_stderr` diagnostics and no benchmark
spawn effect. -/
theorem C3_staging_failure_short_circuits (w : World) (p : Option String)
    (hfail : (prepare_policy w p).1 = false) :
    evaluate w p =
      .ok (⟨⟨0, 0, .neginf⟩, (prepare_policy w p).2.1⟩, (prepare_policy w p).2.2) ∧
    hasKey (prepare_policy w p).2.1 "run_stdout" = false ∧
    hasKey (prepare_policy w p).2.1 "run_stderr" = false ∧
    ∀ f, Effect.spawnBenchmark f ∉ (prepare_policy w p).2.2 := by
  refine ⟨?_, ?_, ?_, fun f hmem => ?_⟩
  · rcases hpp : prepare_policy w p with ⟨b, arts, effs⟩
    rw [hpp] at hfail
    simp only at hfail
    subst hfail
    simp [evaluate, hpp]
  · exact prepare_policy_hasKey_false w p _ (by simp [stagingKeys])
  · exact prepare_policy_hasKey_false w p _ (by simp [stagingKeys])
  · rcases prepare_policy_effects w p _ hmem with ⟨s, d, he⟩ | he <;> simp at he

theorem C3_staging_failure_witness :
    evaluate { baseWorld with pathExists := fun _ => false } (some "/tmp/x.c") =
      .ok (⟨⟨0, 0, .neginf⟩,
            (prepare_policy { baseWorld with pathExists := fun _ => false }
              (some "/tmp/x.c")).2.1⟩,
           (prepare_policy { baseWorld with pathExists := fun _ => false }
              (some "/tmp/x.c")).2.2) ∧
    hasKey (prepare_policy { baseWorld with pathExists := fun _ => false }
      (some "/tmp/x.c")).2.1 "run_stdout" = false :=
  ⟨(C3_staging_failure_short_circuits _ _ (by decide)).1,
   (C3_staging_failure_short_circuits _ _ (by decide)).2.1⟩

lemma prepare_policy_same_path (w : World) (c : String)
    (hne : pyStrip c ≠ "")
    (hex : w.pathExists (w.expanduser (pyStrip c)) = true)
    (hf : w.isFile (w.expanduser (pyStrip c)) = true)
    (hsuf : pathSuffix (w.expanduser (pyStrip c)) = ".c")
    (hsame : w.resolvePath (w.expanduser (pyStrip c)) = w.policyDestReal) :
    prepare_policy w (some c) = buildStage w [] [] := by
  unfold prepare_policy
  simp [hne, hex, hf, hsuf, hsame]

lemma prepare_policy_differing_path (w : World) (c : String)
    (hne : pyStrip c ≠ "")
    (hex : w.pathExists (w.expanduser (pyStrip c)) = true)
    (hf : w.isFile (w.expanduser (pyStrip c)) = true)
    (hsuf : pathSuffix (w.expanduser (pyStrip c)) = ".c")
    (hdiff : w.resolvePath (w.expanduser (pyStrip c)) ≠ w.policyDestReal)
    (hcopy : w.copyOk = true) :
    prepare_policy w (some c) =
      buildStage w
        [("copied_policy_from", w.resolvePath (w.expanduser (pyStrip c)))]
        [.copyFile (w.resolvePath (w.expanduser (pyStrip c))) w.policyDestReal] := by
  unfold prepare_policy
  simp [hne, hex, hf, hsuf, hdiff, hcopy]

/-- C7: when the candidate resolves to the fixed destination itself, no
copy happens and no `copied_policy_from` diagnostic is recorded, yet the
build step is invoked exactly as in the differing-path case (in both, a
build runs if and only if the build script exists). -/
theorem C7_copy_idempotent (w : World) (c cDiff : String)
    (hne : pyStrip c ≠ "")
    (hex : w.pathExists (w.expanduser (pyStrip c)) = true)
    (hf : w.isFile (w.expanduser (pyStrip c)) = true)
    (hsuf : pathSuffix (w.expanduser (pyStrip c)) = ".c")
    (hsame : w.resolvePath (w.expanduser (pyStrip c)) = w.policyDestReal)
    (hne2 : pyStrip cDiff ≠ "")
    (hex2 : w.pathExists (w.expanduser (pyStrip cDiff)) = true)
    (hf2 : w.isFile (w.expanduser (pyStrip cDiff)) = true)
    (hsuf2 : pathSuffix (w.expanduser (pyStrip cDiff)) = ".c")
    (hdiff : w.resolvePath (w.expanduser (pyStrip cDiff)) ≠ w.policyDestReal)
    (hcopy : w.copyOk = true) :
    prepare_policy w (some c) = buildStage w [] [] ∧
    hasKey (prepare_policy w (some c)).2.1 "copied_policy_from" = false ∧
    (∀ s d, Effect.copyFile s d ∉ (prepare_policy w (some c)).2.2) ∧
    (Effect.runBuild ∈ (prepare_policy w (some c)).2.2 ↔
      w.buildScriptExists = true) ∧
    (Effect.runBuild ∈ (prepare_policy w (some cDiff)).2.2 ↔
      w.buildScriptExists = true) := by
  have h1 := prepare_policy_same_path w c hne hex hf hsuf hsame
  have h2 := prepare_policy_differing_path w cDiff hne2 hex2 hf2 hsuf2 hdiff hcopy
  refine ⟨h1, ?_, fun s d hmem => ?_, ?_, ?_⟩
  · rw [h1]
    refine hasKey_false_of_not_mem _ _ (fun hm => ?_)
    rcases buildStage_keys w _ _ _ hm with h' | h' <;> simp [keysOf] at h'
  · rw [h1] at hmem
    rcases buildStage_effects w _ _ _ hmem with h' | h' <;> simp at h'
  · rw [h1, buildStage_runBuild_mem]
    simp
  · rw [h2, buildStage_runBuild_mem]
    simp

theorem C7_copy_idempotent_witness :
    prepare_policy baseWorld (some "/root/cache_ext/policies/cache_ext_agent.bpf.c") =
      buildStage baseWorld [] [] ∧
    hasKey (prepare_policy baseWorld
      (some "/root/cache_ext/policies/cache_ext_agent.bpf.c")).2.1
      "copied_policy_from" = false ∧
    (Effect.runBuild ∈ (prepare_policy baseWorld
      (some "/root/cache_ext/policies/cache_ext_agent.bpf.c")).2.2 ↔
      baseWorld.buildScriptExists = true) := by
  have h := C7_copy_idempotent baseWorld
    "/root/cache_ext/policies/cache_ext_agent.bpf.c" "/tmp/y.c"
    (by decide) rfl rfl (by decide) (by decide)
    (by decide) rfl rfl (by decide) (by decide) rfl
  exact ⟨h.1, h.2.1, h.2.2.2.1⟩

lemma evaluate_success_nonempty (w : World) (p : Option String) (rs : List ℚ)
    (hprep : (prepare_policy w p).1 = true)
    (hload : load_cache_ext_runtimes w.resultsFile = .ok rs)
    (hne : rs ≠ []) :
    (evaluate w p).map (fun r => r.1.metrics) =
      .ok ⟨pymean rs, (rs.length : ℚ), .val (-(pymean rs))⟩ := by
  rcases hpp : prepare_policy w p with ⟨b, arts, effs⟩
  rw [hpp] at hprep
  simp only at hprep
  subst hprep
  rcases hrf : run_filesearch_script w ("filesearch_results_" ++ w.timestamp ++ ".json")
    with ⟨ra, re⟩
  simp [evaluate, hpp, hrf, hload, hne, Except.map]

lemma evaluate_success_empty (w : World) (p : Option String)
    (hprep : (prepare_policy w p).1 = true)
    (hload : load_cache_ext_runtimes w.resultsFile = .ok []) :
    (evaluate w p).map (fun r => r.1.metrics) = .ok ⟨0, 0, .neginf⟩ := by
  rcases hpp : prepare_policy w p with ⟨b, arts, effs⟩
  rw [hpp] at hprep
  simp only at hprep
  subst hprep
  rcases hrf : run_filesearch_script w ("filesearch_results_" ++ w.timestamp ++ ".json")
    with ⟨ra, re⟩
  simp [evaluate, hpp, hrf, hload, Except.map]

lemma processEntries_skip (e : JVal) (rest : List JVal)
    (h : entrySkips e = true) :
    processEntries (e :: rest) = processEntries rest := by
  rcases e with _ | b | q | s | xs | fs
  case jobj =>
    simp only [entrySkips] at h
    rcases hc : (objGet fs "config").getD (.jobj []) with _ | _ | _ | _ | _ | cfs <;>
      rw [hc] at h <;> simp only [Bool.false_eq_true] at h
    have hne : pyEqStr ((objGet cfs "cgroup_name").getD .jnull) "cache_ext_test" = false := by
      simpa using h
    simp [processEntries, pyGet, hc, hne, bind, Except.bind]
  all_goals simp [entrySkips] at h

lemma processEntries_all_skip (entries : List JVal)
    (h : ∀ e ∈ entries, entrySkips e = true) :
    processEntries entries = .ok [] := by
  induction entries with
  | nil => rfl
  | cons e rest ih =>
    rw [processEntries_skip e rest (h e (.head _))]
    exact ih (fun x hx => h x (.tail _ hx))

/-- C2: whenever zero numeric runtimes survive aggregation — the results
file is missing or unreadable, its content is not a list, the list is
empty, or every record is skipped — `evaluate` returns metrics exactly
(0, 0, negative infinity). -/
theorem C2_zero_runtimes_sentinel (w : World) (p : Option String)
    (hprep : (prepare_policy w p).1 = true)
    (hload : load_cache_ext_runtimes w.resultsFile = .ok []) :
    ((evaluate w p).map (fun r => r.1.metrics) = .ok ⟨0, 0, .neginf⟩) ∧
    load_cache_ext_runtimes .missing = .ok [] ∧
    load_cache_ext_runtimes .invalid = .ok [] ∧
    (∀ j, (∀ xs, j ≠ .jarr xs) → load_cache_ext_runtimes (.parsed j) = .ok []) ∧
    load_cache_ext_runtimes (.parsed (.jarr [])) = .ok [] ∧
    (∀ entries, (∀ e ∈ entries, entrySkips e = true) →
      load_cache_ext_runtimes (.parsed (.jarr entries)) = .ok []) := by
  refine ⟨evaluate_success_empty w p hprep hload, rfl, rfl, fun j hj => ?_, rfl,
    fun entries he => ?_⟩
  · rcases j with _ | b | q | s | xs | fs
    case jarr => exact absurd rfl (hj xs)
    all_goals rfl
  · exact processEntries_all_skip entries he

theorem C2_zero_runtimes_sentinel_witness :
    (evaluate { baseWorld with resultsFile := .parsed (.jarr [otherRec]) } none).map
        (fun r => r.1.metrics) = .ok ⟨0, 0, .neginf⟩ :=
  (C2_zero_runtimes_sentinel { baseWorld with resultsFile := .parsed (.jarr [otherRec]) }
    none rfl rfl).1

/-- C1: on the spec's three-record results file, the metrics are exactly
(3, 2, -3); only records whose `config.cgroup_name` equals
`"cache_ext_test"` contribute; and in general the combined score is the
negated arithmetic mean of the surviving runtimes with the count their
number. -/
theorem C1_aggregation_mean (w : World) (p : Option String)
    (hprep : (prepare_policy w p).1 = true) :
    (w.resultsFile = .parsed specData →
      (evaluate w p).map (fun r => r.1.metrics) = .ok ⟨3, 2, .val (-3)⟩) ∧
    (∀ entry rest cfg cg, pyGet entry "config" (.jobj []) = .ok cfg →
      pyGet cfg "cgroup_name" .jnull = .ok cg →
      pyEqStr cg "cache_ext_test" = false →
      processEntries (entry :: rest) = processEntries rest) ∧
    (∀ rs, load_cache_ext_runtimes w.resultsFile = .ok rs → rs ≠ [] →
      (evaluate w p).map (fun r => r.1.metrics) =
        .ok ⟨pymean rs, (rs.length : ℚ), .val (-(pymean rs))⟩) := by
  refine ⟨fun hfile => ?_, fun entry rest cfg cg hcfg hcg hne => ?_, fun rs hl hne =>
    evaluate_success_nonempty w p rs hprep hl hne⟩
  · have hl : load_cache_ext_runtimes w.resultsFile = .ok [2, 4] := by
      rw [hfile]; rfl
    have h := evaluate_success_nonempty w p [2, 4] hprep hl (by simp)
    have hm : pymean [2, 4] = 3 := by norm_num [pymean]
    rw [h, hm]
    norm_num
  · rcases entry with _ | b | q | s | xs | fs
    case jobj =>
      simp only [pyGet, Except.ok.injEq] at hcfg
      subst hcfg
      rcases hcc : (objGet fs "config").getD (.jobj []) with _ | _ | _ | _ | _ | cfs <;>
        rw [hcc] at hcg <;> simp only [pyGet] at hcg
      case jobj =>
        simp only [Except.ok.injEq] at hcg
        subst hcg
        simp [processEntries, pyGet, hcc, hne, bind, Except.bind]
      all_goals exact Except.noConfusion hcg
    all_goals
      simp only [pyGet] at hcfg
      exact Except.noConfusion hcfg

theorem C1_aggregation_mean_witness :
    (evaluate { baseWorld with resultsFile := .parsed specData } none).map
        (fun r => r.1.metrics) = .ok ⟨3, 2, .val (-3)⟩ :=
  (C1_aggregation_mean { baseWorld with resultsFile := .parsed specData } none rfl).1 rfl

lemma processEntries_cacheRec_ok (v : JVal) (q : ℚ) (hv : pyFloat v = .ok q)
    (rest : List JVal) :
    processEntries (cacheRec v :: rest) =
      (processEntries rest).map (fun rs => q :: rs) := by
  rcases hr : processEntries rest with rs | e <;>
    simp [processEntries, cacheRec, pyGet, objGet, pyEqStr, hv, hr, bind,
      Except.bind, Except.map]

/-- C10: a qualifying record whose `runtime_sec` is a string parsing as a
number is not dropped: the parsed value contributes to the runtimes, the
count, the mean and the combined score exactly as a native number would. -/
theorem C10_string_runtime_coerced (s : String) (q : ℚ)
    (h : pyFloatOfString s = some q) :
    (∀ rest, processEntries (cacheRec (.jstr s) :: rest) =
      processEntries (cacheRec (.jnum q) :: rest)) ∧
    (∀ rest, processEntries (cacheRec (.jstr s) :: rest) =
      (processEntries rest).map (fun rs => q :: rs)) ∧
    (∀ w p, (prepare_policy w p).1 = true →
      w.resultsFile = .parsed (.jarr [cacheRec (.jstr s)]) →
      (evaluate w p).map (fun r => r.1.metrics) = .ok ⟨q, 1, .val (-q)⟩) := by
  have hv : pyFloat (.jstr s) = .ok q := by simp [pyFloat, h]
  have hstr := fun rest => processEntries_cacheRec_ok (.jstr s) q hv rest
  have hnum := fun rest => processEntries_cacheRec_ok (.jnum q) q rfl rest
  refine ⟨fun rest => (hstr rest).trans (hnum rest).symm, hstr,
    fun w p hprep hfile => ?_⟩
  have hl : load_cache_ext_runtimes w.resultsFile = .ok [q] := by
    rw [hfile]
    show processEntries [cacheRec (.jstr s)] = .ok [q]
    rw [hstr []]
    rfl
  have h2 := evaluate_success_nonempty w p [q] hprep hl (by simp)
  have hm : pymean [q] = q := by simp [pymean]
  rw [h2, hm]
  norm_num

lemma pyFloatOfString_example : pyFloatOfString "2.5" = some (5 / 2) := by
  have h : pyFloatOfString "2.5" = some ((2 : ℚ) + 5 / 10 ^ 1) := rfl
  rw [h]
  norm_num

theorem C10_string_runtime_coerced_witness :
    pyFloatOfString "2.5" = some (5 / 2) ∧
    processEntries [cacheRec (.jstr "2.5")] =
      processEntries [cacheRec (.jnum (5 / 2))] :=
  ⟨pyFloatOfString_example,
   (C10_string_runtime_coerced "2.5" (5 / 2) pyFloatOfString_example).1 []⟩

lemma getVal_append_last (xs : List (String × String)) (k v : String) :
    getVal (xs ++ [(k, v)]) k = some v := by
  simp [getVal, List.foldl_append]

/-- C5: a missing benchmark script starts no subprocess, records a
`run_error` diagnostic naming the script, and evaluation still proceeds
to aggregation, which (finding no results file) yields the negative
infinity sentinel rather than an exception. -/
theorem C5_missing_benchmark_script (w : World) (p : Option String)
    (hprep : (prepare_policy w p).1 = true)
    (hrun : w.runScriptExists = false)
    (hfile : w.resultsFile = .missing) :
    ∃ r effs, evaluate w p = .ok (r, effs) ∧
      r.metrics = ⟨0, 0, .neginf⟩ ∧
      getVal r.artifacts "run_error" =
        some ("run.sh not found at " ++ FILESEARCH_DIR w ++ "/run.sh") ∧
      (∀ f, Effect.spawnBenchmark f ∉ effs) := by
  rcases hpp : prepare_policy w p with ⟨b, arts, effs⟩
  rw [hpp] at hprep
  simp only at hprep
  subst hprep
  have hrf : run_filesearch_script w ("filesearch_results_" ++ w.timestamp ++ ".json") =
      ([("run_error", "run.sh not found at " ++ FILESEARCH_DIR w ++ "/run.sh")], []) := by
    unfold run_filesearch_script
    simp [hrun]
  refine ⟨⟨⟨0, 0, .neginf⟩,
      arts ++ [("run_error", "run.sh not found at " ++ FILESEARCH_DIR w ++ "/run.sh")]⟩,
    effs ++ [.mkdirResults], ?_, rfl, getVal_append_last arts _ _, fun f hf => ?_⟩
  · simp [evaluate, hpp, hrf, hfile, load_cache_ext_runtimes, bind, Except.bind]
  · rcases List.mem_append.mp hf with hm | hm
    · rcases prepare_policy_effects w p _ (by rw [hpp]; exact hm) with ⟨s, d, he⟩ | he <;>
        simp at he
    · simp at hm

theorem C5_missing_benchmark_script_witness :
    ∃ r effs,
      evaluate { baseWorld with runScriptExists := false } none = .ok (r, effs) ∧
      r.metrics = ⟨0, 0, .neginf⟩ ∧
      getVal r.artifacts "run_error" =
        some ("run.sh not found at " ++
          FILESEARCH_DIR { baseWorld with runScriptExists := false } ++ "/run.sh") ∧
      (∀ f, Effect.spawnBenchmark f ∉ effs) :=
  C5_missing_benchmark_script { baseWorld with runScriptExists := false } none rfl rfl rfl

/-- C8 counterexample: a failed build emits the diagnostic key
`build_error`, which is reachable through `evaluate` yet absent from the
claim's ten-key list, so the claimed key inventory is incomplete. -/
theorem C8_counterexample :
    (evaluate { baseWorld with buildResult := ⟨"", "", 1⟩ } (some "/tmp/p.c")).map
        (fun r => hasKey r.1.artifacts "build_error") = .ok true ∧
    "build_error" ∉
      ["run_error", "run_stdout", "run_stderr", "run_exit_code",
       "results_filename", "program_error", "copied_policy_from",
       "build_stdout", "build_stderr", "build_exit_code"] :=
  ⟨rfl, by decide⟩

/-- C8 (amended): every diagnostic key `evaluate` can return is drawn
from the eleven-key set that also contains `build_error`; staging keys
and run keys are disjoint, so merging the per-stage maps never
overwrites a key. -/
theorem C8_amended_disjoint_keys (w : World) (p : Option String) :
    (∀ k ∈ keysOf (prepare_policy w p).2.1, k ∈ stagingKeys) ∧
    (∀ f k, k ∈ keysOf (run_filesearch_script w f).1 → k ∈ runKeys) ∧
    (∀ k ∈ stagingKeys, k ∉ runKeys) ∧
    (∀ r effs, evaluate w p = .ok (r, effs) →
      ∀ k ∈ keysOf r.artifacts, k ∈ stagingKeys ++ runKeys) := by
  refine ⟨fun k hk => prepare_policy_keys w p k hk,
    fun f k hk => run_filesearch_keys w f k hk, by decide,
    fun r effs hev k hk => ?_⟩
  have harts : ∀ k ∈ keysOf (prepare_policy w p).2.1, k ∈ stagingKeys :=
    fun k hk => prepare_policy_keys w p k hk
  rcases hpp : prepare_policy w p with ⟨b, arts, effs'⟩
  rw [hpp] at harts
  rcases hrf : run_filesearch_script w ("filesearch_results_" ++ w.timestamp ++ ".json")
    with ⟨ra, re⟩
  have hra : ∀ k ∈ keysOf ra, k ∈ runKeys :=
    fun k hk => run_filesearch_keys w _ k (by rw [hrf]; exact hk)
  cases b
  · have hev2 : evaluate w p = .ok (⟨⟨0, 0, .neginf⟩, arts⟩, effs') := by
      simp [evaluate, hpp]
    rw [hev2] at hev
    have hr : r = ⟨⟨0, 0, .neginf⟩, arts⟩ :=
      (congrArg Prod.fst (Except.ok.inj hev)).symm
    rw [hr] at hk
    exact List.mem_append.mpr (Or.inl (harts k hk))
  · rcases hl : load_cache_ext_runtimes w.resultsFile with e | rs
    · have hev2 : evaluate w p = .error e := by
        simp [evaluate, hpp, hrf, hl]
      rw [hev2] at hev
      exact Except.noConfusion hev
    · by_cases hne : rs = []
      · subst hne
        have hev2 : evaluate w p =
            .ok (⟨⟨0, 0, .neginf⟩, arts ++ ra⟩, effs' ++ [.mkdirResults] ++ re) := by
          simp [evaluate, hpp, hrf, hl]
        rw [hev2] at hev
        have hr : r = ⟨⟨0, 0, .neginf⟩, arts ++ ra⟩ :=
          (congrArg Prod.fst (Except.ok.inj hev)).symm
        rw [hr] at hk
        simp only [keysOf, List.map_append] at hk
        rcases List.mem_append.mp hk with hm | hm
        · exact List.mem_append.mpr (Or.inl (harts k hm))
        · exact List.mem_append.mpr (Or.inr (hra k hm))
      · have hev2 : evaluate w p =
            .ok (⟨⟨pymean rs, (rs.length : ℚ), .val (-(pymean rs))⟩, arts ++ ra⟩,
                 effs' ++ [.mkdirResults] ++ re) := by
          simp [evaluate, hpp, hrf, hl, hne]
        rw [hev2] at hev
        have hr : r = ⟨⟨pymean rs, (rs.length : ℚ), .val (-(pymean rs))⟩, arts ++ ra⟩ :=
          (congrArg Prod.fst (Except.ok.inj hev)).symm
        rw [hr] at hk
        simp only [keysOf, List.map_append] at hk
        rcases List.mem_append.mp hk with hm | hm
        · exact List.mem_append.mpr (Or.inl (harts k hm))
        · exact List.mem_append.mpr (Or.inr (hra k hm))

theorem C8_amended_disjoint_keys_witness : "build_error" ∉ runKeys :=
  (C8_amended_disjoint_keys baseWorld none).2.2.1 "build_error" (by decide)

lemma pyFloat_ne_attr (v : JVal) : pyFloat v ≠ .error .attributeError := by
  rcases v with _ | b | q | s | xs | fs <;> simp [pyFloat]
  rcases h : pyFloatOfString s with _ | q <;> simp

/-- C4 counterexample: a results list whose entry is not an object makes
the loop call `.get` on a non-dict; the `AttributeError` is outside the
`except (TypeError, ValueError)` clause, so it escapes
`_load_cache_ext_runtimes` and crosses the top-level `evaluate`
boundary. -/
theorem C4_counterexample :
    load_cache_ext_runtimes (.parsed (.jarr [.jnum 5])) = .error .attributeError ∧
    evaluate { baseWorld with resultsFile := .parsed (.jarr [.jnum 5]) } none =
      .error .attributeError :=
  ⟨rfl, rfl⟩

lemma processEntries_safe_ok (entries : List JVal)
    (hsafe : ∀ e ∈ entries, entrySafe e = true) :
    ∃ rs, processEntries entries = .ok rs := by
  induction entries with
  | nil => exact ⟨[], rfl⟩
  | cons e rest ih =>
    obtain ⟨rs, hrs⟩ := ih (fun x hx => hsafe x (List.mem_cons_of_mem e hx))
    have he := hsafe e (List.mem_cons_self e rest)
    rcases e with _ | b | q | s | xs | fs
    case jobj =>
      simp only [entrySafe, Bool.and_eq_true] at he
      obtain ⟨hc, hr⟩ := he
      rcases hcc : (objGet fs "config").getD (.jobj []) with _ | _ | _ | _ | _ | cfs <;>
        rw [hcc] at hc <;> simp at hc
      rcases hrr : (objGet fs "results").getD (.jobj []) with _ | _ | _ | _ | _ | rfs <;>
        rw [hrr] at hr <;> simp at hr
      by_cases hcg : pyEqStr ((objGet cfs "cgroup_name").getD .jnull) "cache_ext_test" = true
      · rcases hv : pyFloat ((objGet rfs "runtime_sec").getD .jnull) with exn | q
        · rcases exn with _ | _ | _
          · exact absurd hv (pyFloat_ne_attr _)
          · exact ⟨rs,
              by simp [processEntries, pyGet, hcc, hrr, hcg, hv, hrs, bind, Except.bind]⟩
          · exact ⟨rs,
              by simp [processEntries, pyGet, hcc, hrr, hcg, hv, hrs, bind, Except.bind]⟩
        · exact ⟨q :: rs,
            by simp [processEntries, pyGet, hcc, hrr, hcg, hv, hrs, bind, Except.bind]⟩
      · have hcg2 : pyEqStr ((objGet cfs "cgroup_name").getD .jnull) "cache_ext_test" = false := by
          simpa using hcg
        exact ⟨rs, by simp [processEntries, pyGet, hcc, hcg2, hrs, bind, Except.bind]⟩
    all_goals simp [entrySafe] at he

/-- C4 (amended): parse-time anomalies are soft for list entries that are
objects whose `config`/`results` fields, when present, are objects —
such lists aggregate without raising, dropping offending records
individually, and `evaluate` returns normally on them; but an entry that
is not an object (or whose `config`/`results` value is a non-object)
raises an `AttributeError` that escapes `evaluate`
(see the counterexample). -/
theorem C4_amended_soft_anomalies (entries : List JVal)
    (hsafe : ∀ e ∈ entries, entrySafe e = true) :
    (∃ rs, processEntries entries = .ok rs) ∧
    (∀ w p, w.resultsFile = .parsed (.jarr entries) →
      ∃ out, evaluate w p = .ok out) ∧
    (∀ v rest, pyFloat v = .error .typeError ∨ pyFloat v = .error .valueError →
      processEntries (cacheRec v :: rest) = processEntries rest) := by
  obtain ⟨rs, hrs⟩ := processEntries_safe_ok entries hsafe
  refine ⟨⟨rs, hrs⟩, fun w p hfile => ?_, fun v rest hv => ?_⟩
  · rcases hpp : prepare_policy w p with ⟨b, arts, effs⟩
    cases b
    · exact ⟨(⟨⟨0, 0, .neginf⟩, arts⟩, effs), by simp [evaluate, hpp]⟩
    · rcases hrf : run_filesearch_script w ("filesearch_results_" ++ w.timestamp ++ ".json")
        with ⟨ra, re⟩
      have hl : load_cache_ext_runtimes w.resultsFile = .ok rs := by
        rw [hfile]; exact hrs
      by_cases hne : rs = []
      · subst hne
        exact ⟨(⟨⟨0, 0, .neginf⟩, arts ++ ra⟩, effs ++ [.mkdirResults] ++ re),
          by simp [evaluate, hpp, hrf, hl]⟩
      · exact ⟨(⟨⟨pymean rs, (rs.length : ℚ), .val (-(pymean rs))⟩, arts ++ ra⟩,
          effs ++ [.mkdirResults] ++ re), by simp [evaluate, hpp, hrf, hl, hne]⟩
  · rcases hv with hv | hv <;>
      simp [processEntries, cacheRec, pyGet, objGet, pyEqStr, hv, bind, Except.bind]

theorem C4_amended_soft_anomalies_witness :
    ∃ rs, processEntries [cacheRec (.jnum 2), otherRec] = .ok rs :=
  (C4_amended_soft_anomalies [cacheRec (.jnum 2), otherRec] (by decide)).1
